import Mathlib

/-!
Shallow embedding of the kops spec-completion core
(`upup/pkg/fi/cloudup/subnets.go`, `upup/pkg/fi/cloudup/populate_cluster_spec.go`
and the awstasks Subnet / LoadBalancer task code), together with theorems
settling the frozen claims about it.

Conventions of the embedding:
* IPv4 addresses are natural numbers below 2^32 (big-endian value of the four
  bytes); Go's `uint32` wraparound is written as an explicit `% 2^32`.
* `net.IPNet` becomes `IPNet` (an address family plus a mask length);
  `net.ParseCIDR`'s second result (the masked network) becomes `parseCIDR`,
  which only handles dotted-quad IPv4 input — every CIDR the claims touch is
  IPv4.  Like Go, the parser masks the address with the network mask.
* Fallible Go functions returning `error` become `Except String _`
  (format arguments of the Go messages are dropped; the text that the claims
  depend on is kept verbatim).
* In-place mutation through pointers (e.g. `assignCIDRsToSubnets` writing
  subnet CIDRs through `*ClusterSubnetSpec`) becomes functional update of the
  owning structure at the same positions.
-/

/-- An IP address: the IPv4 constructor carries the 32-bit big-endian value,
the v6 constructor carries the 128-bit value.  Only the family tag and the
numeric value are needed by the modelled code. -/
inductive IP where
  | v4 (a : Nat)
  | v6 (a : Nat)
deriving DecidableEq, Repr

/-- Model of Go's `net.IPNet`: an address together with the number of
leading one bits of the mask (`Mask.Size()`); `ones` plays the role of the
CIDR mask length. -/
structure IPNet where
  ip : IP
  ones : Nat
deriving DecidableEq, Repr

/-- Parse a decimal numeral: every char a digit, at least one digit.
This matches Go's `dtoi` as used on a full field of an IPv4 address or on
the mask of a CIDR (values too large are rejected by the callers' range
checks, exactly as in Go). -/
def parseDecimal (s : List Char) : Option Nat :=
  if s.isEmpty then none
  else if s.all Char.isDigit then
    some (s.foldl (fun n c => n * 10 + (c.toNat - 48)) 0)
  else none

/-- Parse one IPv4 octet: a digit string with value at most 255
(Go's `parseIPv4` field parsing). -/
def parseOctet (s : List Char) : Option Nat := do
  let n ← parseDecimal s
  if n ≤ 255 then some n else none

/-- Split a list of characters on a separator character
(the character-level core of the string splitting done by Go's `ParseCIDR`
and `parseIPv4`, kept kernel-friendly). -/
def splitOnChar (sep : Char) (s : List Char) : List (List Char) :=
  match s with
  | [] => [[]]
  | c :: rest =>
    let r := splitOnChar sep rest
    if c = sep then [] :: r
    else match r with
      | [] => [[c]]
      | h :: t => (c :: h) :: t

/-- Model of Go's `net.ParseCIDR`, restricted to IPv4 dotted-quad input
(`"a.b.c.d/n"`), returning the *masked* network — the second return value of
`ParseCIDR`, which is what every call site in the modelled code uses. -/
def parseCIDR (s : String) : Option IPNet :=
  match splitOnChar '/' s.toList with
  | [addrPart, maskPart] =>
    (match splitOnChar '.' addrPart with
     | [f1, f2, f3, f4] => do
       let a ← parseOctet f1
       let b ← parseOctet f2
       let c ← parseOctet f3
       let d ← parseOctet f4
       let ones ← parseDecimal maskPart
       if ones ≤ 32 then
         some { ip := IP.v4 ((((a * 256 + b) * 256 + c) * 256 + d)
                              / 2 ^ (32 - ones) * 2 ^ (32 - ones)),
                ones := ones }
       else none
     | _ => none)
  | _ => none

/-- Render an IPv4 address value as a dotted quad (Go's `IP.String()` for a
4-byte address). -/
def ip4String (a : Nat) : String :=
  toString (a / 2 ^ 24) ++ "." ++ toString (a / 2 ^ 16 % 256) ++ "." ++
    toString (a / 2 ^ 8 % 256) ++ "." ++ toString (a % 256)

/-- Render an `IPNet` as Go's `IPNet.String()` does for an IPv4 network with
a canonical mask: `"a.b.c.d/ones"`. -/
def ipnetString (n : IPNet) : String :=
  match n.ip with
  | IP.v4 a => ip4String a ++ "/" ++ toString n.ones
  | IP.v6 a => toString a ++ "/" ++ toString n.ones

/-- A well-formed IPv4 network: the address value fits in 32 bits, is masked
(all host bits zero) and the mask length is at most 32.  `parseCIDR` only
produces well-formed networks. -/
def IPNet.wf (n : IPNet) : Prop :=
  match n.ip with
  | IP.v4 a => a < 2 ^ 32 ∧ a % 2 ^ (32 - n.ones) = 0 ∧ n.ones ≤ 32
  | IP.v6 _ => True

theorem parseOctet_le {s : List Char} {n : Nat} (h : parseOctet s = some n) :
    n ≤ 255 := by
  unfold parseOctet at h
  cases hd : parseDecimal s with
  | none => rw [hd] at h; exact absurd h (by simp [bind])
  | some m =>
    rw [hd] at h
    simp only [bind, Option.some_bind] at h
    split at h
    · cases h; assumption
    · exact absurd h (by simp)

/-- Every network produced by `parseCIDR` is well-formed. -/
theorem parseCIDR_wf {s : String} {net : IPNet}
    (h : parseCIDR s = some net) : net.wf := by
  unfold parseCIDR at h
  split at h
  · split at h
    · simp only [bind, Option.bind_eq_some] at h
      obtain ⟨a, h1, b, h2, c, h3, d, h4, ones, h5, h6⟩ := h
      split at h6
      · cases h6
        have ha := parseOctet_le h1
        have hb := parseOctet_le h2
        have hc := parseOctet_le h3
        have hd := parseOctet_le h4
        simp only [IPNet.wf]
        refine ⟨?_, Nat.mul_mod_left _ _, by assumption⟩
        have hle : (((a * 256 + b) * 256 + c) * 256 + d)
            / 2 ^ (32 - ones) * 2 ^ (32 - ones)
            ≤ ((a * 256 + b) * 256 + c) * 256 + d := Nat.div_mul_le_self _ _
        have : ((a * 256 + b) * 256 + c) * 256 + d < 2 ^ 32 := by
          have : (2 : Nat) ^ 32 = 4294967296 := by norm_num
          nlinarith
        omega
      · exact absurd h6 (by simp)
    · exact absurd h (by simp)
  · exact absurd h (by simp)

/-- The empty string is not a CIDR (used to show the `NonMasqueradeCIDR = ""`
guard and the parse branch of `assignSubnets` are mutually exclusive). -/
theorem parseCIDR_empty : parseCIDR "" = none := by decide

/-! ## splitInto8Subnets (subnets.go) -/

/-- Model of `splitInto8Subnets` (subnets.go): splits the parent `IPNet` into
8 subnets of mask length `parent.ones + 3`.  Go computes each child base as
`uint32` arithmetic `n + uint32(i) << uint(32-networkLength)`; the shift is 0
when `networkLength > 32` (shift count at least the word size), and the
addition wraps modulo `2^32`.  A non-IPv4 parent fails on the first
iteration, before anything is produced. -/
def splitInto8Subnets (parent : IPNet) : Except String (List IPNet) :=
  let networkLength := parent.ones + 3
  match parent.ip with
  | IP.v4 a =>
    .ok ((List.range 8).map (fun i =>
      { ip := IP.v4 ((a + i * (if networkLength ≤ 32 then 2 ^ (32 - networkLength) else 0))
                      % 2 ^ 32),
        ones := networkLength }))
  | IP.v6 _ => .error "Unexpected IP address type"

/-! ## Cluster data model (pkg/apis/kops, the fields the modelled code reads) -/

/-- kops `ClusterSubnetSpec`: the fields read and written by
`assignCIDRsToSubnets`. -/
structure ClusterSubnetSpec where
  name : String
  zone : String
  cidr : String
  type : String
deriving DecidableEq, Repr

/-- kops `EtcdMemberSpec` (`Name`, `InstanceGroup *string`). -/
structure EtcdMemberSpec where
  name : String
  instanceGroup : Option String
deriving DecidableEq, Repr

/-- kops `EtcdClusterSpec` (`Name`, `Members`). -/
structure EtcdClusterSpec where
  name : String
  members : List EtcdMemberSpec
deriving DecidableEq, Repr

/-- kops `KubeControllerManagerConfig`: only `ClusterCIDR` is touched by the
modelled code. -/
structure KubeControllerManagerConfig where
  clusterCIDR : String
deriving DecidableEq, Repr

/-- The slice of the kops `Cluster`/`ClusterSpec` that the modelled
normalization steps read or write. -/
structure ClusterSpec where
  networkCIDR : String
  nonMasqueradeCIDR : String
  serviceClusterIPRange : String
  subnets : List ClusterSubnetSpec
  kubeControllerManager : Option KubeControllerManagerConfig
  etcdClusters : List EtcdClusterSpec
deriving DecidableEq, Repr

/-- kops `SubnetTypePublic`. -/
def subnetTypePublic : String := "Public"

/-- kops `SubnetTypePrivate`. -/
def subnetTypePrivate : String := "Private"

/-- kops `SubnetTypeUtility`. -/
def subnetTypeUtility : String := "Utility"

/-- Model of `allSubnetsHaveCIDRs` (subnets.go): true iff every subnet has a
non-empty CIDR. -/
def allSubnetsHaveCIDRs (c : ClusterSpec) : Bool :=
  c.subnets.all (fun s => s.cidr != "")

/-- Model of `IPNet.Contains`: mask the address with the network's mask and
compare with the network address.  Mismatched address families (and a `nil`
mask, which Go produces for `ones > 32`) compare false. -/
def ipnetContains (n : IPNet) (x : IP) : Bool :=
  match n.ip, x with
  | IP.v4 a, IP.v4 b =>
    if n.ones ≤ 32 then b / 2 ^ (32 - n.ones) * 2 ^ (32 - n.ones) == a else false
  | IP.v6 a, IP.v6 b =>
    if n.ones ≤ 128 then b / 2 ^ (128 - n.ones) * 2 ^ (128 - n.ones) == a else false
  | _, _ => false

/-- Model of `cidrsOverlap` (subnets.go): two CIDRs are non-disjoint iff
either contains the other's network address. -/
def cidrsOverlap (l r : IPNet) : Bool :=
  ipnetContains l r.ip || ipnetContains r l.ip

/-! ## Sorting subnets by zone (`sort.Sort(ByZone(...))`) -/

/-- Byte-wise lexicographic comparison of character lists; on the ASCII zone
names this is exactly Go's `<` on strings. -/
def charListLt : List Char → List Char → Bool
  | [], [] => false
  | [], _ :: _ => true
  | _ :: _, [] => false
  | a :: as, b :: bs =>
    if a.toNat < b.toNat then true
    else if b.toNat < a.toNat then false
    else charListLt as bs

/-- Go's `<` on strings (byte-wise lexicographic; the modelled zone names are
ASCII, where bytes and chars agree). -/
def strLt (a b : String) : Bool := charListLt a.toList b.toList

/-- Insert an indexed subnet into a list sorted by zone, keeping it before
any subnet with an equal zone (a stable realization of `sort.Sort(ByZone)`;
Go's sort is unstable, but the order among equal zones is unspecified there
and immaterial to the claims). -/
def insertByZone (x : Nat × ClusterSubnetSpec) :
    List (Nat × ClusterSubnetSpec) → List (Nat × ClusterSubnetSpec)
  | [] => [x]
  | h :: t => if strLt h.2.zone x.2.zone then h :: insertByZone x t else x :: h :: t

/-- Sort indexed subnets by ascending zone (`sort.Sort(ByZone(...))`). -/
def sortByZone (l : List (Nat × ClusterSubnetSpec)) : List (Nat × ClusterSubnetSpec) :=
  l.foldr insertByZone []

/-! ## assignCIDRsToSubnets (subnets.go) -/

/-- The type dispatch of the classification loop of `assignCIDRsToSubnets`
(subnets.go lines 74-83): Public/Private subnets are "big", Utility subnets
are "little", anything else is an error. -/
def classifyType (s : ClusterSubnetSpec) : Except String Bool :=
  if s.type = subnetTypePublic ∨ s.type = subnetTypePrivate then .ok true
  else if s.type = subnetTypeUtility then .ok false
  else .error "subnet has unknown type"

/-- The reserved-CIDR collection for one subnet (lines 85-92): an already-set
CIDR is parsed and recorded, a bad one is an error. -/
def classifyReserved (s : ClusterSubnetSpec) : Except String (Option IPNet) :=
  if s.cidr = "" then .ok none
  else match parseCIDR s.cidr with
    | none => .error "subnet has unexpected CIDR"
    | some r => .ok (some r)

/-- The classification loop of `assignCIDRsToSubnets` (subnets.go lines
68-93): walk the subnets in order (carrying their position in the list, which
stands in for Go's pointer into `c.Spec.Subnets`), split them into "big"
(Public/Private) and "little" (Utility) groups, reject unknown types, and
collect the parsed CIDRs of subnets that already have one as reserved. -/
def classifySubnets : Nat → List ClusterSubnetSpec →
    Except String
      (List (Nat × ClusterSubnetSpec) × List (Nat × ClusterSubnetSpec) × List IPNet)
  | _, [] => .ok ([], [], [])
  | i, s :: rest => do
    let isBig ← classifyType s
    let res ← classifyReserved s
    let (big, little, reserved) ← classifySubnets (i + 1) rest
    .ok (if isBig then ((i, s) :: big, little, res.toList ++ reserved)
         else (big, (i, s) :: little, res.toList ++ reserved))

/-- The per-group assignment loop of `assignCIDRsToSubnets` (subnets.go lines
126-152): subnets that already have a CIDR are skipped; each remaining subnet
receives the next CIDR of the pool, rendered as a string, and an exhausted
pool is an `insufficient ... CIDRs` error.  The result maps subnet positions
to their newly assigned CIDR strings. -/
def assignFromPool (kind : String) :
    List (Nat × ClusterSubnetSpec) → List IPNet → Except String (List (Nat × String))
  | [], _ => .ok []
  | (i, s) :: rest, pool =>
    if s.cidr != "" then assignFromPool kind rest pool
    else match pool with
      | [] => .error ("insufficient (" ++ kind ++
          ") CIDRs remaining for automatic CIDR allocation to subnet")
      | p :: ps => do
        let tail ← assignFromPool kind rest ps
        .ok ((i, ipnetString p) :: tail)

/-- Apply the positional CIDR assignments back to the subnet list (the
functional counterpart of Go's writes through `*ClusterSubnetSpec`). -/
def updateCIDRs : Nat → List ClusterSubnetSpec → List (Nat × String) → List ClusterSubnetSpec
  | _, [], _ => []
  | i, s :: rest, upds =>
    (match upds.lookup i with
     | some v => { s with cidr := v }
     | none => s) :: updateCIDRs (i + 1) rest upds

/-- Model of `assignCIDRsToSubnets` (subnets.go lines 42-155): if every
subnet already has a CIDR nothing happens; otherwise the NetworkCIDR is split
into 8 "big" ranges, ranges overlapping a user-supplied subnet CIDR are
dropped, the first remaining big range is split into 8 "little" ranges for
Utility subnets, and the loops assign the pools to the CIDR-less subnets in
zone order. -/
def assignCIDRsToSubnets (c : ClusterSpec) : Except String ClusterSpec :=
  if allSubnetsHaveCIDRs c then .ok c
  else match parseCIDR c.networkCIDR with
    | none => .error "Invalid NetworkCIDR"
    | some cidr => do
      let bigCIDRs0 ← splitInto8Subnets cidr
      let (bigSubnets, littleSubnets, reserved) ← classifySubnets 0 c.subnets
      let bigCIDRs := bigCIDRs0.filter (fun cc => !(reserved.any (fun r => cidrsOverlap r cc)))
      match bigCIDRs with
      | [] => .error "could not find any non-overlapping CIDRs in parent NetworkCIDR; cannot automatically assign CIDR to subnet"
      | first :: restBig => do
        let littleCIDRs ← splitInto8Subnets first
        let bigUpd ← assignFromPool "big" (sortByZone bigSubnets) restBig
        let littleUpd ← assignFromPool "little" (sortByZone littleSubnets) littleCIDRs
        .ok { c with subnets := updateCIDRs 0 c.subnets (bigUpd ++ littleUpd) }

instance {ε α : Type} [DecidableEq ε] [DecidableEq α] : DecidableEq (Except ε α) :=
  fun x y =>
    match x, y with
    | .ok a, .ok b =>
      if h : a = b then isTrue (by rw [h]) else isFalse (fun he => h (Except.ok.inj he))
    | .error a, .error b =>
      if h : a = b then isTrue (by rw [h]) else isFalse (fun he => h (Except.error.inj he))
    | .ok _, .error _ => isFalse (fun he => Except.noConfusion he)
    | .error _, .ok _ => isFalse (fun he => Except.noConfusion he)

/-- Sanity check: splitting `172.20.0.0/16` yields the eight `/19` ranges. -/
theorem splitInto8Subnets_example : (do
    let r ← splitInto8Subnets { ip := IP.v4 (172 * 2 ^ 24 + 20 * 2 ^ 16), ones := 16 }
    Except.ok (r.map ipnetString) : Except String (List String)) =
    .ok ["172.20.0.0/19", "172.20.32.0/19", "172.20.64.0/19", "172.20.96.0/19",
         "172.20.128.0/19", "172.20.160.0/19", "172.20.192.0/19", "172.20.224.0/19"] := by
  decide

/-! ## assignSubnets (populate_cluster_spec.go lines 306-349) -/

/-- The `ClusterCIDR` defaulting step of `assignSubnets` (corpus lines
318-339), factored out: with an empty `ClusterCIDR`, an IPv4
NonMasqueradeCIDR yields the base plus `uint32(1 << uint(nmBits-nmOnes-1))`
(which is 0 when `ones = 32`, the shift count being negative there) under a
mask one bit longer; a non-IPv4 one is the stubbed IPv6 error. -/
def defaultClusterCIDR (kcm0 : KubeControllerManagerConfig) (nm : IPNet) :
    Except String KubeControllerManagerConfig :=
  if kcm0.clusterCIDR = "" then
    match nm.ip with
    | IP.v4 a =>
      let inc := if nm.ones + 1 ≤ 32 then 2 ^ (32 - nm.ones - 1) else 0
      let ccidr := ipnetString ⟨IP.v4 ((a + inc) % 2 ^ 32), nm.ones + 1⟩
      Except.ok { kcm0 with clusterCIDR := ccidr }
    | IP.v6 _ => Except.error "IPV6 subnet computations not yet implements"
  else Except.ok kcm0

/-- Model of `(*populateClusterSpec).assignSubnets` (corpus lines 306-349):
with an empty `NonMasqueradeCIDR` the function warns and returns at once,
touching nothing.  Otherwise the CIDR is parsed; a missing
`KubeControllerManager` block is created; an empty `ClusterCIDR` is
defaulted to the upper half of the NonMasqueradeCIDR; an empty
`ServiceClusterIPRange` is defaulted to the NonMasqueradeCIDR base with the
mask three bits longer. -/
def assignSubnets (c : ClusterSpec) : Except String ClusterSpec :=
  if c.nonMasqueradeCIDR = "" then .ok c
  else match parseCIDR c.nonMasqueradeCIDR with
    | none => .error "error parsing NonMasqueradeCIDR"
    | some nm => do
      let kcm ← defaultClusterCIDR (c.kubeControllerManager.getD ⟨""⟩) nm
      let scr := if c.serviceClusterIPRange = "" then
          ipnetString ⟨nm.ip, nm.ones + 3⟩
        else c.serviceClusterIPRange
      .ok { c with kubeControllerManager := some kcm, serviceClusterIPRange := scr }

/-! ## WellKnownServiceIP (populate_cluster_spec.go lines 1156-1186) -/

/-- Model of `TemplateFunctions.WellKnownServiceIP`: parse the
`ServiceClusterIPRange`; for an IPv4 range the id is added to the base with
`uint32` arithmetic (`n += uint32(id)`, i.e. modulo `2^32`, with no range
check against the host bits); for an IPv6 range `big.Int` addition is used. -/
def wellKnownServiceIP (c : ClusterSpec) (id : Nat) : Except String IP :=
  match parseCIDR c.serviceClusterIPRange with
  | none => .error "error parsing ServiceClusterIPRange"
  | some cidr =>
    match cidr.ip with
    | IP.v4 a => .ok (IP.v4 ((a + id % 2 ^ 32) % 2 ^ 32))
    | IP.v6 a => .ok (IP.v6 (a + id))

/-! ## Etcd-cluster validation (populate_cluster_spec.go lines 127-171) -/

/-- The first member loop of the etcd check: every member needs a `Name` and
an `InstanceGroup` (Go reads the pointer through `fi.StringValue`, so a nil
pointer and an empty string coincide). -/
def etcdMemberPrecheck : List EtcdMemberSpec → Except String Unit
  | [] => .ok ()
  | m :: rest =>
    if m.name = "" then .error "EtcdMember did not specify a Name"
    else if m.instanceGroup.getD "" = "" then
      .error "EtcdMember did not specify a InstanceGroup"
    else etcdMemberPrecheck rest

/-- The second member loop of the etcd check (corpus lines 144-163).  The
`names` accumulator models the `etcdNames` map, which the source creates and
reads (line 148) but NEVER writes — only `etcdInstanceGroups` is populated
(line 162).  The accumulator is therefore never extended here: the
duplicate-name check is dead code and duplicate member names are accepted;
only member instance groups must be unique within the cluster.  The
returned list carries the accumulated distinct instance-group names; its
length is Go's `len(etcdInstanceGroups)`. -/
def etcdUniqueLoop : List EtcdMemberSpec → List String → List String →
    Except String (List String)
  | [], _, igs => .ok igs
  | m :: rest, names, igs =>
    if names.contains m.name then
      .error "EtcdMembers found with same name"
    else
      let ig := m.instanceGroup.getD ""
      if igs.contains ig then
        .error "EtcdMembers are in the same InstanceGroup"
      else etcdUniqueLoop rest names (ig :: igs)

/-- The etcd validation applied to one etcd cluster (populate_cluster_spec.go
lines 129-168): name present, member prechecks, instance-group uniqueness
(the member-name uniqueness check being dead, see `etcdUniqueLoop`), and the
quorum parity rule — an even number of distinct member instance groups is an
error. -/
def etcdClusterCheck (etcd : EtcdClusterSpec) : Except String Unit := do
  if etcd.name = "" then .error "EtcdClusters did not specify a Name"
  else do
    etcdMemberPrecheck etcd.members
    let igs ← etcdUniqueLoop etcd.members [] []
    if igs.length % 2 == 0 then
      .error "There should be an odd number of master-zones, for etcd quorum"
    else .ok ()

/-- The etcd validation over all etcd clusters, aborting at the first
failure as `run` does. -/
def etcdClustersCheck : List EtcdClusterSpec → Except String Unit
  | [] => .ok ()
  | e :: rest => do
    etcdClusterCheck e
    etcdClustersCheck rest

/-- The number of distinct instance groups referenced by an etcd cluster's
members (reading a nil `InstanceGroup` as `""`, as `fi.StringValue` does). -/
def distinctIGCount (e : EtcdClusterSpec) : Nat :=
  ((e.members.map (fun m => m.instanceGroup.getD "")).dedup).length

/-- Modelled from the spec: the normalization prefix of
`(*populateClusterSpec).run` restricted to the steps whose code is in the
corpus, composed in `run`'s order — `assignSubnets`, then the subnet CIDR
assignment (reached from `run` through `PerformAssignments`, whose body is
not in the corpus; per spec §4.2 step 3 it performs the §4.1 subnet CIDR
assignment), then the etcd-cluster validation.  The external steps
(input validation, `FillDefaults`, store resolution, version normalization,
DNS discovery, the options loader and strict re-validation) are outside the
corpus and omitted; each of them only propagates errors, so a failure of a
modelled step still aborts the whole population. -/
def runNormalize (c : ClusterSpec) : Except String ClusterSpec := do
  let c1 ← assignSubnets c
  let c2 ← assignCIDRsToSubnets c1
  etcdClustersCheck c2.etcdClusters
  .ok c2

/-- Sanity check: defaulting from `100.64.0.0/10` gives the upper half
`100.96.0.0/11` as ClusterCIDR and `100.64.0.0/13` as the service range. -/
theorem assignSubnets_example :
    (assignSubnets { networkCIDR := "172.20.0.0/16", nonMasqueradeCIDR := "100.64.0.0/10",
                     serviceClusterIPRange := "", subnets := [], kubeControllerManager := none,
                     etcdClusters := [] }).map
      (fun c => ((c.kubeControllerManager.map (fun k => k.clusterCIDR)).getD "",
                 c.serviceClusterIPRange)) =
    .ok ("100.96.0.0/11", "100.64.0.0/13") := by decide

/-! ## Task model: errors and the awstasks Subnet task -/

/-- The structured error kinds of the `fi` task layer, whose helpers
(`fi.RequiredField`, `fi.CannotChangeField`) are not part of the corpus.
Modelled from the spec error taxonomy (§7): `RequiredField(path)`,
`CannotChange(path)`, and a catch-all for plain `fmt.Errorf` errors, carrying
the message. -/
inductive TaskError where
  | requiredField (f : String)
  | cannotChange (f : String)
  | other (msg : String)
deriving DecidableEq, Repr

/-- A reference to a VPC task, as held by a Subnet task's `VPC *VPC` field;
only pointer-presence and the ID matter to the modelled code. -/
structure VPCRef where
  id : Option String
deriving DecidableEq, Repr

/-- The awstasks `Subnet` task.  A `none` in a field models a nil pointer.
The same shape serves as the `changes` argument of `CheckChanges` (the output
of the reflection diff, where an unchanged field is nil). -/
structure SubnetTask where
  name : Option String
  id : Option String
  vpc : Option VPCRef
  availabilityZone : Option String
  cidr : Option String
  shared : Option Bool
deriving DecidableEq, Repr

/-- Model of `(*Subnet).CheckChanges`: on the create path (`a = none`) VPC
and CIDR are required; on the update path any change to VPC,
AvailabilityZone or CIDR is rejected as immutable, in that order. -/
def subnetCheckChanges (a : Option SubnetTask) (e changes : SubnetTask) :
    Except TaskError Unit :=
  match a with
  | none =>
    if e.vpc = none then .error (.requiredField "VPC")
    else if e.cidr = none then .error (.requiredField "CIDR")
    else .ok ()
  | some _ =>
    if changes.vpc ≠ none then .error (.cannotChange "VPC")
    else if changes.availabilityZone ≠ none then .error (.cannotChange "AvailabilityZone")
    else if changes.cidr ≠ none then .error (.cannotChange "CIDR")
    else .ok ()

/-- The fields of an `ec2.Subnet` description read by `(*Subnet).Find`. -/
structure Ec2Subnet where
  subnetId : Option String
  availabilityZone : Option String
  vpcId : Option String
  cidrBlock : Option String
  tags : List (String × String)
deriving DecidableEq, Repr

/-- Modelled from the spec: the awstasks helper `findNameTag` is not in the
corpus; per the tagging convention it returns the value of the `Name` tag
when present.  Its value never reaches the expected task, so no claim
depends on it. -/
def findNameTag (tags : List (String × String)) : Option String :=
  (tags.find? (fun t => t.1 == "Name")).map (fun t => t.2)

/-- Model of `(*Subnet).Find` (populate_cluster_spec.go corpus lines
945-981).  The cloud query (`DescribeSubnets` by ID or by tag filters) is an
external call; its response is a parameter.  An empty response is "absent";
a unique match builds the actual task and writes the discovered ID back into
the expected task; several matches hit `glog.Fatalf`, modelled as an
error. -/
def subnetFind (e : SubnetTask) (response : List Ec2Subnet) :
    Except String (Option SubnetTask × SubnetTask) :=
  match response with
  | [] => .ok (none, e)
  | [s] =>
    let actual : SubnetTask :=
      { id := s.subnetId, availabilityZone := s.availabilityZone,
        vpc := some { id := s.vpcId }, cidr := s.cidrBlock,
        name := findNameTag s.tags, shared := e.shared }
    .ok (some actual, { e with id := actual.id })
  | _ => .error "found multiple Subnets matching tags"

/-! ## Task model: the awstasks LoadBalancer task -/

/-- awstasks `LoadBalancerListener` (only the instance port). -/
structure LBListener where
  instancePort : Int
deriving DecidableEq, Repr

/-- awstasks `LoadBalancerHealthCheck` (the fields copied by the renderers). -/
structure LBHealthCheck where
  target : Option String
  healthyThreshold : Option Int
  unhealthyThreshold : Option Int
  interval : Option Int
  timeoutSeconds : Option Int
deriving DecidableEq, Repr

/-- awstasks `LoadBalancerAccessLog`. -/
structure LBAccessLog where
  emitInterval : Option Int
  enabled : Option Bool
  s3BucketName : Option String
  s3Prefix : Option String
deriving DecidableEq, Repr

/-- awstasks `LoadBalancerConnectionDraining`. -/
structure LBConnectionDraining where
  enabled : Option Bool
  timeoutSeconds : Option Int
deriving DecidableEq, Repr

/-- awstasks `LoadBalancerConnectionSettings`. -/
structure LBConnectionSettings where
  idleTimeout : Option Int
deriving DecidableEq, Repr

/-- awstasks `LoadBalancerCrossZoneLoadBalancing`. -/
structure LBCrossZone where
  enabled : Option Bool
deriving DecidableEq, Repr

/-- The awstasks `LoadBalancer` task.  Subnet and security-group task
pointers are represented by their IDs (`Option String`, nil when the
referenced task has no ID yet); the listener map is an association list keyed
by the stringified load-balancer port. -/
structure LoadBalancerTask where
  name : Option String
  id : Option String
  dnsName : Option String
  hostedZoneId : Option String
  subnets : List (Option String)
  securityGroups : List (Option String)
  listeners : List (String × LBListener)
  scheme : Option String
  healthCheck : Option LBHealthCheck
  accessLog : Option LBAccessLog
  connectionDraining : Option LBConnectionDraining
  connectionSettings : Option LBConnectionSettings
  crossZoneLoadBalancing : Option LBCrossZone
deriving DecidableEq, Repr

/-- The diff (`changes`) argument consumed by the LoadBalancer renderers:
Go's reflection diff leaves an unchanged slice/map/pointer field nil, which
`Option` captures; only the fields the modelled code reads are carried. -/
structure LoadBalancerChanges where
  subnets : Option (List (Option String))
  listeners : Option (List (String × LBListener))
  healthCheck : Option LBHealthCheck
deriving DecidableEq, Repr

/-- The trailing optional-block checks of `(*LoadBalancer).CheckChanges`'s
create path (ConnectionDraining, then CrossZoneLoadBalancing; the
ConnectionSettings check is commented out in the source). -/
def lbCheckCreateTail (e : LoadBalancerTask) : Except TaskError Unit :=
  match e.connectionDraining with
  | some cd =>
    if cd.enabled = none then .error (.requiredField "ConnectionDraining.Enabled")
    else match e.crossZoneLoadBalancing with
      | some cz =>
        if cz.enabled = none then .error (.requiredField "CrossZoneLoadBalancing.Enabled")
        else .ok ()
      | none => .ok ()
  | none =>
    match e.crossZoneLoadBalancing with
    | some cz =>
      if cz.enabled = none then .error (.requiredField "CrossZoneLoadBalancing.Enabled")
      else .ok ()
    | none => .ok ()

/-- Model of `(*LoadBalancer).CheckChanges`: only the create path
(`a = none`) checks anything — required name, security groups, subnets and
the well-formedness of the optional attribute blocks.  On the update path
(`a = some _`) the body is skipped and the function returns nil: no
immutability rule is enforced here; the `changes` argument is never read. -/
def lbCheckChanges (a : Option LoadBalancerTask) (e : LoadBalancerTask)
    (_changes : LoadBalancerChanges) : Except TaskError Unit :=
  match a with
  | none =>
    if (e.name.getD "") = "" then .error (.requiredField "Name")
    else if e.securityGroups.length = 0 then .error (.requiredField "SecurityGroups")
    else if e.subnets.length = 0 then .error (.requiredField "Subnets")
    else
      match e.accessLog with
      | some al =>
        if al.enabled = none then .error (.requiredField "Acceslog.Enabled")
        else if al.enabled = some true ∧ al.s3BucketName = none then
          .error (.requiredField "Acceslog.S3Bucket")
        else lbCheckCreateTail e
      | none => lbCheckCreateTail e
  | some _ => .ok ()

/-- Stable insertion of a string into a sorted list (byte-wise order). -/
def insertStr (x : String) : List String → List String
  | [] => [x]
  | h :: t => if charListLt h.toList x.toList then h :: insertStr x t else x :: h :: t

/-- Sort a list of strings (byte-wise order). -/
def sortStrings (l : List String) : List String := l.foldr insertStr []

/-- Modelled from the spec: `utils.StringSlicesEqualIgnoreOrder` is not in
the corpus; per spec §4.5 the reconciler ignores subnet reordering "if the
multiset of IDs is equal", so the helper compares the two slices as
multisets. -/
def stringSlicesEqualIgnoreOrder (l r : List String) : Bool :=
  sortStrings l == sortStrings r

/-- Model of `subnetSlicesEqualIgnoreOrder` (corpus lines 1047-1061): the
right-hand (expected) slice fails the comparison if any of its subnets has no
ID yet; otherwise the ID multisets are compared.  The left-hand (actual)
slice always has IDs (Go dereferences them unconditionally; `Find` builds
them from the cloud response). -/
def subnetSlicesEqualIgnoreOrder (l r : List (Option String)) : Bool :=
  if r.any (fun s => s.isNone) then false
  else stringSlicesEqualIgnoreOrder (l.map (fun s => s.getD ""))
    (r.map (fun s => s.getD ""))

/-- The fields of an `elb.LoadBalancerDescription` read by
`(*LoadBalancer).Find`; listener descriptions are (load-balancer port,
instance port) pairs. -/
structure ElbDescription where
  loadBalancerName : Option String
  dnsName : Option String
  canonicalHostedZoneNameID : Option String
  scheme : Option String
  subnets : List String
  securityGroups : List String
  listenerDescriptions : List (Int × Int)
deriving DecidableEq, Repr

/-- The attribute blocks returned by `findELBAttributes` (an external ELB
query), already shaped like the task's attribute structures — Go copies each
non-nil field of the response into a freshly zeroed block, which is the
identity on the block. -/
structure ElbAttributes where
  accessLog : LBAccessLog
  connectionDraining : LBConnectionDraining
  connectionSettings : LBConnectionSettings
  crossZoneLoadBalancing : LBCrossZone
deriving DecidableEq, Repr

/-- Model of `(*LoadBalancer).Find` (corpus lines 528-640).  The three cloud
reads — `findLoadBalancer` (by ID, else by name), `findHealthCheck` and
`findELBAttributes`, the latter two external to the corpus — are parameters.
When a load balancer is found, the actual task is built from the
description; an actual subnet slice equal as a multiset to the expected one
is replaced by it to avoid spurious diffs; and the expected task receives
the discovered `DNSName`, `HostedZoneId` and `ID` for each of those fields
that is still nil. -/
def lbFind (e : LoadBalancerTask) (lb : Option ElbDescription)
    (attrs : Option ElbAttributes) (hc : Option LBHealthCheck) :
    Except String (Option LoadBalancerTask × LoadBalancerTask) :=
  match lb with
  | none => .ok (none, e)
  | some d =>
    let actual0 : LoadBalancerTask :=
      { name := e.name, id := d.loadBalancerName, dnsName := d.dnsName,
        hostedZoneId := d.canonicalHostedZoneNameID, scheme := d.scheme,
        subnets := d.subnets.map some,
        securityGroups := d.securityGroups.map some,
        listeners := d.listenerDescriptions.map
          (fun p => (toString p.1, { instancePort := p.2 })),
        healthCheck := hc,
        accessLog := attrs.map (fun x => x.accessLog),
        connectionDraining := attrs.map (fun x => x.connectionDraining),
        connectionSettings := attrs.map (fun x => x.connectionSettings),
        crossZoneLoadBalancing := attrs.map (fun x => x.crossZoneLoadBalancing) }
    let actual := if subnetSlicesEqualIgnoreOrder actual0.subnets e.subnets
      then { actual0 with subnets := e.subnets } else actual0
    let e1 := if e.dnsName = none then { e with dnsName := actual.dnsName } else e
    let e2 := if e1.hostedZoneId = none then { e1 with hostedZoneId := actual.hostedZoneId } else e1
    let e3 := if e2.id = none then { e2 with id := actual.id } else e2
    .ok (some actual, e3)

/-- Model of Go's `strconv.ParseInt(s, 10, 64)` as used on listener ports:
an optional sign followed by digits (64-bit overflow is out of the modelled
domain). -/
def parsePort (s : String) : Option Int :=
  match s.toList with
  | '-' :: rest => (parseDecimal rest).map (fun n => -(n : Int))
  | '+' :: rest => (parseDecimal rest).map (fun n => (n : Int))
  | l => (parseDecimal l).map (fun n => (n : Int))

/-- The externally visible ELB mutations that `(*LoadBalancer).RenderAWS`
can issue on its update path. -/
inductive ElbOp where
  | createListeners (ports : List String)
  | configureHealthCheck
  | addTags
deriving DecidableEq, Repr

/-- Model of the update branch of `(*LoadBalancer).RenderAWS` (corpus lines
688-788, `a != nil`), as the sequence of cloud mutations it issues: the name
is resolved from ID or Name (`RequiredField("ID")` if both nil); a non-nil
`changes.Subnets` aborts with the literal `fmt.Errorf` message *before any
cloud call*; otherwise changed listeners are created (each port parsed
first; a bad port aborts before the call), the health check is configured
only when both `changes.HealthCheck` and `e.HealthCheck` are non-nil, and
tags are applied last. -/
def lbRenderAWSUpdate (e : LoadBalancerTask) (changes : LoadBalancerChanges) :
    Except TaskError (List ElbOp) :=
  match (match e.id with | some i => some i | none => e.name) with
  | none => .error (.requiredField "ID")
  | some _ =>
    match changes.subnets with
    | some _ => .error (.other "subnet changes on LoadBalancer not yet implemented")
    | none => do
      let ops1 ←
        match changes.listeners with
        | some ls =>
          if ls.all (fun p => (parsePort p.1).isSome) then
            Except.ok [ElbOp.createListeners (ls.map (fun p => p.1))]
          else Except.error (TaskError.other "error parsing load balancer listener port")
        | none => Except.ok []
      let ops2 := if changes.healthCheck ≠ none ∧ e.healthCheck ≠ none then
          [ElbOp.configureHealthCheck]
        else []
      .ok (ops1 ++ ops2 ++ [ElbOp.addTags])

/-! ## Shared arithmetic and well-formedness lemmas -/

/-- A masked value plus an offset smaller than the mask granule stays below
any bound the granule divides: no `uint32` wraparound occurs. -/
theorem masked_add_lt {a m M x : Nat} (hmod : a % m = 0) (ha : a < M)
    (hdvd : m ∣ M) (hx : x < m) : a + x < M := by
  obtain ⟨k, hk⟩ := Nat.dvd_of_mod_eq_zero hmod
  obtain ⟨K, hK⟩ := hdvd
  subst hk hK
  have hm : 0 < m := by omega
  have hkK : k + 1 ≤ K := by
    rcases Nat.lt_or_ge k K with h | h
    · omega
    · exfalso
      have := Nat.mul_le_mul_left m h
      omega
  have hmul : m * (k + 1) ≤ m * K := Nat.mul_le_mul_left m hkK
  have hexp : m * (k + 1) = m * k + m := by ring
  omega

/-- Unpack `IPNet.wf` for an IPv4 network. -/
theorem wf_v4_bound {net : IPNet} {a : Nat} (hwf : net.wf)
    (hip : net.ip = IP.v4 a) :
    a < 2 ^ 32 ∧ a % 2 ^ (32 - net.ones) = 0 ∧ net.ones ≤ 32 := by
  obtain ⟨ip, ones⟩ := net
  dsimp only at hip
  subst hip
  exact hwf

/-! ## Claim theorems: assignSubnets defaulting (C3, C10) -/

/-- The `ClusterCIDR` of a cluster as the modelled code reads it: through
the possibly-nil `KubeControllerManager` pointer, a missing block reading as
empty. -/
def clusterCIDRField (c : ClusterSpec) : String :=
  (c.kubeControllerManager.getD ⟨""⟩).clusterCIDR

/-- C10: if the input cluster's `NonMasqueradeCIDR` is the empty string, the
ClusterCIDR / ServiceClusterIPRange defaulting step returns success without
modifying the cluster at all. -/
theorem assignSubnets_noop_of_empty_nonMasquerade (c : ClusterSpec)
    (h : c.nonMasqueradeCIDR = "") : assignSubnets c = .ok c := by
  simp [assignSubnets, h]

/-- Witness for C10 at a concrete cluster whose other fields are non-empty. -/
theorem assignSubnets_noop_of_empty_nonMasquerade_witness :
    assignSubnets
      { networkCIDR := "172.20.0.0/16", nonMasqueradeCIDR := "",
        serviceClusterIPRange := "", subnets := [], kubeControllerManager := none,
        etcdClusters := [] } =
    .ok { networkCIDR := "172.20.0.0/16", nonMasqueradeCIDR := "",
          serviceClusterIPRange := "", subnets := [], kubeControllerManager := none,
          etcdClusters := [] } :=
  assignSubnets_noop_of_empty_nonMasquerade _ rfl

/-- C3: for a cluster whose NonMasqueradeCIDR is a valid IPv4 CIDR (with
room for three more mask bits, as the claimed formulas presuppose),
`assignSubnets` succeeds; an empty `ClusterCIDR` is defaulted to the upper
half of the NonMasqueradeCIDR — mask one bit longer, the newly exposed bit
set, i.e. base `a + 2^(32-ones-1)` — and an empty `ServiceClusterIPRange` is
defaulted to the CIDR with the NonMasqueradeCIDR's base address and the mask
three bits longer (the lowest eighth). -/
theorem assignSubnets_defaults (c : ClusterSpec) (nm : IPNet) (a : Nat)
    (hparse : parseCIDR c.nonMasqueradeCIDR = some nm)
    (hip : nm.ip = IP.v4 a)
    (hones : nm.ones + 3 ≤ 32) :
    ∃ c2, assignSubnets c = .ok c2 ∧
      (clusterCIDRField c = "" →
        clusterCIDRField c2 =
          ipnetString ⟨IP.v4 (a + 2 ^ (32 - nm.ones - 1)), nm.ones + 1⟩) ∧
      (c.serviceClusterIPRange = "" →
        c2.serviceClusterIPRange = ipnetString ⟨IP.v4 a, nm.ones + 3⟩) := by
  have hne : c.nonMasqueradeCIDR ≠ "" := by
    intro h0
    rw [h0, parseCIDR_empty] at hparse
    cases hparse
  have hwf := parseCIDR_wf hparse
  obtain ⟨hlt, hmask, hle32⟩ := wf_v4_bound hwf hip
  have hnowrap : (a + 2 ^ (32 - nm.ones - 1)) % 2 ^ 32 = a + 2 ^ (32 - nm.ones - 1) := by
    apply Nat.mod_eq_of_lt
    refine masked_add_lt hmask hlt (pow_dvd_pow 2 (by omega)) ?_
    exact Nat.pow_lt_pow_right (by norm_num) (by omega)
  unfold assignSubnets
  rw [if_neg hne]
  split
  case h_1 heq =>
    rw [hparse] at heq
    cases heq
  case h_2 nm2 heq =>
    rw [hparse] at heq
    injection heq with heq2
    subst heq2
    by_cases hk : clusterCIDRField c = ""
    · have hkstep : defaultClusterCIDR (c.kubeControllerManager.getD ⟨""⟩) nm =
          Except.ok ⟨ipnetString ⟨IP.v4 (a + 2 ^ (32 - nm.ones - 1)), nm.ones + 1⟩⟩ := by
        unfold clusterCIDRField at hk
        unfold defaultClusterCIDR
        rw [if_pos hk, hip]
        have h31 : nm.ones ≤ 31 := by omega
        have hnowrap2 : (a + 2 ^ (32 - nm.ones - 1)) % 4294967296 =
            a + 2 ^ (32 - nm.ones - 1) := by
          rw [show (4294967296 : Nat) = 2 ^ 32 by norm_num]
          exact hnowrap
        simp [h31, hnowrap2]
      rw [hkstep]
      simp only [bind, Except.bind]
      refine ⟨_, rfl, ?_, ?_⟩
      · intro _
        simp [clusterCIDRField]
      · intro hs
        rw [if_pos hs, hip]
    · have hkstep : defaultClusterCIDR (c.kubeControllerManager.getD ⟨""⟩) nm =
          Except.ok (c.kubeControllerManager.getD ⟨""⟩) := by
        unfold clusterCIDRField at hk
        unfold defaultClusterCIDR
        rw [if_neg hk]
      rw [hkstep]
      simp only [bind, Except.bind]
      refine ⟨_, rfl, ?_, ?_⟩
      · intro h0
        exact absurd h0 hk
      · intro hs
        rw [if_pos hs, hip]

/-- Witness for C3: the default NonMasqueradeCIDR `100.64.0.0/10` with
neither field pre-set. -/
theorem assignSubnets_defaults_witness :
    ∃ c2, assignSubnets
        { networkCIDR := "172.20.0.0/16", nonMasqueradeCIDR := "100.64.0.0/10",
          serviceClusterIPRange := "", subnets := [], kubeControllerManager := none,
          etcdClusters := [] } = .ok c2 ∧
      (clusterCIDRField
          { networkCIDR := "172.20.0.0/16", nonMasqueradeCIDR := "100.64.0.0/10",
            serviceClusterIPRange := "", subnets := [], kubeControllerManager := none,
            etcdClusters := [] } = "" →
        clusterCIDRField c2 =
          ipnetString ⟨IP.v4 (1681915904 + 2 ^ (32 - 10 - 1)), 10 + 1⟩) ∧
      (("" : String) = "" →
        c2.serviceClusterIPRange = ipnetString ⟨IP.v4 1681915904, 10 + 3⟩) :=
  assignSubnets_defaults _ ⟨IP.v4 1681915904, 10⟩ 1681915904 (by decide) rfl (by decide)

/-! ## Claim theorems: WellKnownServiceIP (C7) -/

/-- A cluster whose ServiceClusterIPRange is the default `100.64.0.0/13`
(base value 1681915904, 19 host bits). -/
def svcRangeCluster : ClusterSpec :=
  { networkCIDR := "", nonMasqueradeCIDR := "", serviceClusterIPRange := "100.64.0.0/13",
    subnets := [], kubeControllerManager := none, etcdClusters := [] }

/-- C7 counterexample: for the range `100.64.0.0/13` the host width is 19
bits, so the claim demands an error for `id = 2^19`; the code instead
returns the carried-over address `100.72.0.0` (value 1682440192): there is
no range check, and `uint32` addition simply wraps. -/
theorem wellKnownServiceIP_no_range_check :
    wellKnownServiceIP svcRangeCluster (2 ^ 19) = .ok (IP.v4 1682440192) := by
  decide

/-- C7 amended: `WellKnownServiceIP(id)` on an IPv4 range always succeeds,
returning `base + (id mod 2^32) mod 2^32` (Go's `n += uint32(id)`); in
particular for `id < 2^host_bits` this is exactly `base + id` with no
wraparound, but ids at or above `2^host_bits` are not rejected. -/
theorem wellKnownServiceIP_mod_add (c : ClusterSpec) (net : IPNet) (a : Nat)
    (id : Nat)
    (hparse : parseCIDR c.serviceClusterIPRange = some net)
    (hip : net.ip = IP.v4 a) :
    wellKnownServiceIP c id = .ok (IP.v4 ((a + id % 2 ^ 32) % 2 ^ 32)) ∧
    (id < 2 ^ (32 - net.ones) → wellKnownServiceIP c id = .ok (IP.v4 (a + id))) := by
  have hwf := parseCIDR_wf hparse
  obtain ⟨hlt, hmask, hle32⟩ := wf_v4_bound hwf hip
  have hbase : wellKnownServiceIP c id = .ok (IP.v4 ((a + id % 2 ^ 32) % 2 ^ 32)) := by
    unfold wellKnownServiceIP
    rw [hparse]
    split
    · simp_all
    · rename_i b hb
      injection hb with hb2
      subst hb2
      rw [hip]
  refine ⟨hbase, fun hid => ?_⟩
  have hidsmall : id % 2 ^ 32 = id := by
    apply Nat.mod_eq_of_lt
    calc id < 2 ^ (32 - net.ones) := hid
      _ ≤ 2 ^ 32 := Nat.pow_le_pow_right (by norm_num) (by omega)
  have hsum : (a + id) % 2 ^ 32 = a + id :=
    Nat.mod_eq_of_lt (masked_add_lt hmask hlt (pow_dvd_pow 2 (by omega)) hid)
  rw [hbase, hidsmall, hsum]

/-- Witness for the amended C7 at the concrete range `100.64.0.0/13` and
`id = 3` (yielding `100.64.0.3`). -/
theorem wellKnownServiceIP_mod_add_witness :
    wellKnownServiceIP svcRangeCluster 3 = .ok (IP.v4 ((1681915904 + 3 % 2 ^ 32) % 2 ^ 32)) ∧
    (3 < 2 ^ (32 - 13) → wellKnownServiceIP svcRangeCluster 3 = .ok (IP.v4 (1681915904 + 3))) :=
  wellKnownServiceIP_mod_add svcRangeCluster ⟨IP.v4 1681915904, 13⟩ 1681915904 3
    (by decide) rfl

/-! ## Claim theorems: splitInto8Subnets (C1) -/

/-- C1: for an IPv4 parent CIDR (well-formed, with room for the three extra
mask bits the claimed base formula presupposes), `splitInto8Subnets` returns
exactly the 8 children with mask length `ones + 3`, child `i` based at
`parent.base + i * 2^(32 - ones - 3)` — hence in increasing address order —
and for a non-IPv4 parent it fails with the unsupported-address-family
error. -/
theorem splitInto8Subnets_spec (p : IPNet) :
    (∀ a, p.ip = IP.v4 a → p.wf → p.ones + 3 ≤ 32 →
      splitInto8Subnets p = .ok ((List.range 8).map (fun i =>
        ⟨IP.v4 (a + i * 2 ^ (32 - p.ones - 3)), p.ones + 3⟩)) ∧
      (∀ i j, i < j → j < 8 →
        a + i * 2 ^ (32 - p.ones - 3) < a + j * 2 ^ (32 - p.ones - 3))) ∧
    (∀ b, p.ip = IP.v6 b →
      splitInto8Subnets p = .error "Unexpected IP address type") := by
  constructor
  · intro a hip hwf h32
    obtain ⟨hlt, hmask, _⟩ := wf_v4_bound hwf hip
    constructor
    · unfold splitInto8Subnets
      rw [hip]
      refine congrArg Except.ok ?_
      apply List.map_congr_left
      intro i hi
      have hi8 : i < 8 := List.mem_range.mp hi
      rw [if_pos h32]
      have hpos : (0 : Nat) < 2 ^ (32 - (p.ones + 3)) := pow_pos (by norm_num) _
      have hstep : i * 2 ^ (32 - (p.ones + 3)) < 2 ^ (32 - p.ones) := by
        calc i * 2 ^ (32 - (p.ones + 3)) ≤ 7 * 2 ^ (32 - (p.ones + 3)) :=
              Nat.mul_le_mul_right _ (by omega)
          _ < 8 * 2 ^ (32 - (p.ones + 3)) := by
              have := Nat.mul_lt_mul_of_pos_right (show (7 : Nat) < 8 by norm_num) hpos
              exact this
          _ = 2 ^ (32 - p.ones) := by
              rw [show 32 - p.ones = 3 + (32 - (p.ones + 3)) by omega, pow_add]
              norm_num
      have hbound := masked_add_lt hmask hlt
        (pow_dvd_pow 2 (show 32 - p.ones ≤ 32 by omega)) hstep
      rw [Nat.mod_eq_of_lt hbound, Nat.sub_sub]
    · intro i j hij hj8
      have hpos : (0 : Nat) < 2 ^ (32 - p.ones - 3) := pow_pos (by norm_num) _
      exact Nat.add_lt_add_left (Nat.mul_lt_mul_of_pos_right hij hpos) a
  · intro b hip
    unfold splitInto8Subnets
    rw [hip]

/-- Witness for C1 at the concrete parent `172.20.0.0/16` (base value
2886991872). -/
theorem splitInto8Subnets_spec_witness :
    splitInto8Subnets ⟨IP.v4 2886991872, 16⟩ = .ok ((List.range 8).map (fun i =>
      ⟨IP.v4 (2886991872 + i * 2 ^ (32 - 16 - 3)), 16 + 3⟩)) ∧
    (∀ i j, i < j → j < 8 →
      2886991872 + i * 2 ^ (32 - 16 - 3) < 2886991872 + j * 2 ^ (32 - 16 - 3)) :=
  (splitInto8Subnets_spec ⟨IP.v4 2886991872, 16⟩).1 2886991872 rfl
    ⟨by decide, by decide, by decide⟩ (by decide)

/-! ## Claim theorems: CIDR assignment on concrete clusters (C2, C4) -/

/-- A cluster with one Public and one Utility subnet, neither with a CIDR:
the failing input for the little-pool reservation claim. -/
def publicUtilityCluster : ClusterSpec :=
  { networkCIDR := "172.20.0.0/16", nonMasqueradeCIDR := "100.64.0.0/10",
    serviceClusterIPRange := "",
    subnets := [{ name := "us-test-1a", zone := "us-test-1a", cidr := "", type := "Public" },
                { name := "utility-us-test-1a", zone := "us-test-1a", cidr := "",
                  type := "Utility" }],
    kubeControllerManager := none, etcdClusters := [] }

/-- C2: evaluation at the failing input.  The little pool is
`split8(172.20.0.0/19) = [172.20.0.0/22, 172.20.4.0/22, …]` (second
conjunct), and the Utility subnet receives its *first* element
`172.20.0.0/22`: the code never drops `littleCIDRs[0]`, although the spec —
and the comment in `assignCIDRsToSubnets` itself ("leaving the first one
unused/for future use") — reserve it, which would give the Utility subnet
`172.20.4.0/22`. -/
theorem utility_subnet_gets_first_little :
    (assignCIDRsToSubnets publicUtilityCluster).map
        (fun c => c.subnets.map (fun s => s.cidr)) =
      .ok ["172.20.32.0/19", "172.20.0.0/22"] ∧
    (splitInto8Subnets ⟨IP.v4 2886991872, 19⟩).map (fun l => l.map ipnetString) =
      .ok ["172.20.0.0/22", "172.20.4.0/22", "172.20.8.0/22", "172.20.12.0/22",
           "172.20.16.0/22", "172.20.20.0/22", "172.20.24.0/22", "172.20.28.0/22"] := by
  decide

/-- The minimal input cluster: one Public subnet in `us-test-1a`, NetworkCIDR
`172.20.0.0/16`, the default NonMasqueradeCIDR `100.64.0.0/10` (set by the
CLI before population), no CIDRs pre-set, and a single-member etcd cluster
so the quorum check passes. -/
def minimalCluster : ClusterSpec :=
  { networkCIDR := "172.20.0.0/16", nonMasqueradeCIDR := "100.64.0.0/10",
    serviceClusterIPRange := "",
    subnets := [{ name := "us-test-1a", zone := "us-test-1a", cidr := "", type := "Public" }],
    kubeControllerManager := none,
    etcdClusters := [{ name := "main",
                       members := [{ name := "us-test-1a",
                                     instanceGroup := some "master-us-test-1a" }] }] }

/-- C4 counterexample: normalization of the minimal cluster defaults
`ClusterCIDR` to the *upper* half `100.96.0.0/11` of `100.64.0.0/10` (the
defaulting sets the newly exposed mask bit), not to `100.64.0.0/11` as the
claim states. -/
theorem minimal_clusterCIDR_not_lower_base :
    (runNormalize minimalCluster).map clusterCIDRField = .ok "100.96.0.0/11" ∧
    ("100.96.0.0/11" : String) ≠ "100.64.0.0/11" := by
  decide

/-- C4 amended: normalization of the minimal cluster assigns the single
Public subnet `172.20.32.0/19`, defaults `ClusterCIDR` to `100.96.0.0/11`
and `ServiceClusterIPRange` to `100.64.0.0/13`. -/
theorem minimal_normalization :
    (runNormalize minimalCluster).map (fun c =>
      (c.subnets.map (fun s => s.cidr), clusterCIDRField c, c.serviceClusterIPRange)) =
    .ok (["172.20.32.0/19"], "100.96.0.0/11", "100.64.0.0/13") := by
  decide

/-! ## Claim theorems: etcd quorum validation (C5) -/

/-- Inversion for `Except` bind: a successful chain means a successful first
stage whose value the continuation accepts. -/
theorem exceptBind_ok {ε α β : Type} {x : Except ε α} {f : α → Except ε β} {b : β}
    (h : (x >>= f) = .ok b) : ∃ a, x = .ok a ∧ f a = .ok b := by
  cases x with
  | error e => exact absurd h (by simp [Bind.bind, Except.bind])
  | ok a =>
    refine ⟨a, rfl, ?_⟩
    simpa [Bind.bind, Except.bind] using h

theorem etcdMemberPrecheck_ok {ms : List EtcdMemberSpec}
    (h : etcdMemberPrecheck ms = .ok ()) :
    ∀ m ∈ ms, m.name ≠ "" ∧ m.instanceGroup.getD "" ≠ "" := by
  induction ms with
  | nil => intro m hm; cases hm
  | cons m rest ih =>
    unfold etcdMemberPrecheck at h
    by_cases h1 : m.name = ""
    · rw [if_pos h1] at h
      exact absurd h (by simp)
    · rw [if_neg h1] at h
      by_cases h2 : m.instanceGroup.getD "" = ""
      · rw [if_pos h2] at h
        exact absurd h (by simp)
      · rw [if_neg h2] at h
        intro x hx
        rcases List.mem_cons.mp hx with rfl | hx2
        · exact ⟨h1, h2⟩
        · exact ih h x hx2

theorem etcdUniqueLoop_ok {ms : List EtcdMemberSpec} :
    ∀ {names igs r : List String}, etcdUniqueLoop ms names igs = .ok r →
    (∀ m ∈ ms, (m.instanceGroup.getD "") ∉ igs) ∧
    (ms.map (fun m => m.instanceGroup.getD "")).Nodup ∧
    r.length = igs.length + ms.length := by
  induction ms with
  | nil =>
    intro names igs r h
    unfold etcdUniqueLoop at h
    injection h with h2
    subst h2
    simp
  | cons m rest ih =>
    intro names igs r h
    unfold etcdUniqueLoop at h
    by_cases h1 : names.contains m.name
    · rw [if_pos h1] at h
      exact absurd h (by simp)
    · rw [if_neg h1] at h
      by_cases h2 : igs.contains (m.instanceGroup.getD "")
      · rw [if_pos h2] at h
        exact absurd h (by simp)
      · rw [if_neg h2] at h
        obtain ⟨hnot, hgn, hlen⟩ := ih h
        have h2m : (m.instanceGroup.getD "") ∉ igs := by
          simpa using h2
        refine ⟨?_, ?_, ?_⟩
        · intro x hx
          rcases List.mem_cons.mp hx with rfl | hx2
          · exact h2m
          · exact fun hmem => hnot x hx2 (List.mem_cons_of_mem _ hmem)
        · refine List.nodup_cons.mpr ⟨?_, hgn⟩
          intro hmem
          obtain ⟨x, hx, hxe⟩ := List.mem_map.mp hmem
          exact hnot x hx (by rw [hxe]; exact List.mem_cons_self _ _)
        · simp only [List.length_cons] at hlen ⊢
          omega

theorem etcdClusterCheck_ok_inv {e : EtcdClusterSpec}
    (h : etcdClusterCheck e = .ok ()) :
    e.name ≠ "" ∧
    (∀ m ∈ e.members, m.name ≠ "" ∧ m.instanceGroup.getD "" ≠ "") ∧
    (e.members.map (fun m => m.instanceGroup.getD "")).Nodup ∧
    Odd (distinctIGCount e) := by
  unfold etcdClusterCheck at h
  by_cases h0 : e.name = ""
  · rw [if_pos h0] at h
    exact absurd h (by simp)
  · rw [if_neg h0] at h
    obtain ⟨u, hpre, h⟩ := exceptBind_ok h
    cases u
    obtain ⟨igs, hloop, h⟩ := exceptBind_ok h
    obtain ⟨hnot, hgn, hlen⟩ := etcdUniqueLoop_ok hloop
    split at h
    · exact absurd h (by simp)
    · rename_i hpar
      refine ⟨h0, etcdMemberPrecheck_ok hpre, hgn, ?_⟩
      unfold distinctIGCount
      rw [List.dedup_eq_self.mpr hgn, List.length_map]
      rw [Nat.odd_iff]
      simp only [List.length_nil, Nat.zero_add] at hlen
      simp only [beq_iff_eq] at hpar
      omega

theorem etcdClustersCheck_ok {cs : List EtcdClusterSpec}
    (h : etcdClustersCheck cs = .ok ()) :
    ∀ e ∈ cs, etcdClusterCheck e = .ok () := by
  induction cs with
  | nil => intro e he; cases he
  | cons e rest ih =>
    unfold etcdClustersCheck at h
    obtain ⟨u, hc, h⟩ := exceptBind_ok h
    cases u
    intro x hx
    rcases List.mem_cons.mp hx with rfl | hx2
    · exact hc
    · exact ih h x hx2

theorem etcdClustersCheck_error_of_even {cs : List EtcdClusterSpec}
    (h : ∃ e ∈ cs, Even (distinctIGCount e)) :
    ∃ msg, etcdClustersCheck cs = .error msg := by
  cases hres : etcdClustersCheck cs with
  | error msg => exact ⟨msg, rfl⟩
  | ok u =>
    cases u
    obtain ⟨e, he, heven⟩ := h
    have hodd := (etcdClusterCheck_ok_inv (etcdClustersCheck_ok hres e he)).2.2.2
    exact absurd hodd (Nat.not_odd_iff_even.mpr heven)

/-- `assignSubnets` only touches `KubeControllerManager` and
`ServiceClusterIPRange`; the etcd clusters pass through. -/
theorem assignSubnets_preserves_etcd {c c2 : ClusterSpec}
    (h : assignSubnets c = .ok c2) : c2.etcdClusters = c.etcdClusters := by
  unfold assignSubnets at h
  split at h
  · injection h with h2
    rw [← h2]
  · split at h
    · exact absurd h (by simp)
    · rename_i nm heq
      obtain ⟨kcm, hk, h⟩ := exceptBind_ok h
      injection h with h2
      rw [← h2]

/-- `assignCIDRsToSubnets` only touches the subnet list; the etcd clusters
pass through. -/
theorem assignCIDRs_preserves_etcd {c c2 : ClusterSpec}
    (h : assignCIDRsToSubnets c = .ok c2) : c2.etcdClusters = c.etcdClusters := by
  unfold assignCIDRsToSubnets at h
  split at h
  · injection h with h2
    rw [← h2]
  · split at h
    · exact absurd h (by simp)
    · rename_i cidr heq
      obtain ⟨bigs, h8, h⟩ := exceptBind_ok h
      obtain ⟨triple, hcl, h⟩ := exceptBind_ok h
      obtain ⟨bigS, littleS, res⟩ := triple
      dsimp only at h
      split at h
      · exact absurd h (by simp)
      · rename_i first restBig hfl
        obtain ⟨littles, hlit, h⟩ := exceptBind_ok h
        obtain ⟨bigUpd, hbu, h⟩ := exceptBind_ok h
        obtain ⟨littleUpd, hlu, h⟩ := exceptBind_ok h
        injection h with h2
        rw [← h2]

/-- C5 amended: population rejects even etcd quorums and accepted clusters
satisfy the member invariants the code actually enforces.  (a) Any input in
which some etcd cluster's members span an even number of distinct instance
groups makes `runNormalize` return an error (so no completed spec is
produced).  (b) In any cluster accepted by normalization, every etcd cluster
has an odd number of distinct member instance groups, every member has a
name and an instance group, and member *instance groups* are unique within
their etcd cluster.  (Member names need not be unique: the source's
duplicate-name check reads a map it never writes, see `etcdUniqueLoop` and
the counterexample `dup_member_names_accepted`.) -/
theorem populate_rejects_even_etcd :
    (∀ c : ClusterSpec, (∃ e ∈ c.etcdClusters, Even (distinctIGCount e)) →
      ∃ msg, runNormalize c = .error msg) ∧
    (∀ c c2 : ClusterSpec, runNormalize c = .ok c2 →
      ∀ e ∈ c2.etcdClusters,
        Odd (distinctIGCount e) ∧
        (∀ m ∈ e.members, m.name ≠ "" ∧ m.instanceGroup.getD "" ≠ "") ∧
        (e.members.map (fun m => m.instanceGroup.getD "")).Nodup) := by
  constructor
  · intro c hex
    cases h1 : assignSubnets c with
    | error msg =>
      exact ⟨msg, by simp [runNormalize, h1, Bind.bind, Except.bind]⟩
    | ok c1 =>
      cases h2 : assignCIDRsToSubnets c1 with
      | error msg =>
        exact ⟨msg, by simp [runNormalize, h1, h2, Bind.bind, Except.bind]⟩
      | ok c2 =>
        have hpres : c2.etcdClusters = c.etcdClusters := by
          rw [assignCIDRs_preserves_etcd h2, assignSubnets_preserves_etcd h1]
        have hex2 : ∃ e ∈ c2.etcdClusters, Even (distinctIGCount e) := by
          rw [hpres]
          exact hex
        obtain ⟨msg, hmsg⟩ := etcdClustersCheck_error_of_even hex2
        exact ⟨msg, by simp [runNormalize, h1, h2, hmsg, Bind.bind, Except.bind]⟩
  · intro c c2 h
    unfold runNormalize at h
    obtain ⟨c1, h1, h⟩ := exceptBind_ok h
    obtain ⟨c2t, h2, h⟩ := exceptBind_ok h
    obtain ⟨u, hcheck, h⟩ := exceptBind_ok h
    cases u
    injection h with h3
    subst h3
    intro e he
    have hinv := etcdClusterCheck_ok_inv (etcdClustersCheck_ok hcheck e he)
    exact ⟨hinv.2.2.2, hinv.2.1, hinv.2.2.1⟩

/-- Witness for C5: two master instance groups across two zones — an even
quorum — make normalization abort. -/
theorem populate_rejects_even_etcd_witness :
    ∃ msg, runNormalize
      { networkCIDR := "172.20.0.0/16", nonMasqueradeCIDR := "100.64.0.0/10",
        serviceClusterIPRange := "",
        subnets := [⟨"us-test-1a", "us-test-1a", "", "Public"⟩],
        kubeControllerManager := none,
        etcdClusters := [⟨"main", [⟨"us-test-1a", some "master-us-test-1a"⟩,
                                   ⟨"us-test-1b", some "master-us-test-1b"⟩]⟩] }
      = .error msg :=
  populate_rejects_even_etcd.1 _
    ⟨⟨"main", [⟨"us-test-1a", some "master-us-test-1a"⟩,
               ⟨"us-test-1b", some "master-us-test-1b"⟩]⟩,
     by decide, by decide⟩

/-- A cluster whose etcd cluster has members named `a`, `a`, `b` over three
distinct instance groups (odd quorum): duplicate member names. -/
def dupNamesCluster : ClusterSpec :=
  { networkCIDR := "172.20.0.0/16", nonMasqueradeCIDR := "100.64.0.0/10",
    serviceClusterIPRange := "",
    subnets := [⟨"us-test-1a", "us-test-1a", "", "Public"⟩],
    kubeControllerManager := none,
    etcdClusters := [⟨"main", [⟨"a", some "master-us-test-1a"⟩,
                               ⟨"a", some "master-us-test-1b"⟩,
                               ⟨"b", some "master-us-test-1c"⟩]⟩] }

/-- C5 counterexample: normalization *accepts* `dupNamesCluster` — the etcd
clusters pass through unchanged into the completed spec — although its
member names are not unique, refuting the claim's "member names are unique
within their etcd cluster" conjunct.  The source creates `etcdNames` and
consults it (line 148) but never inserts into it, so the duplicate-name
rejection it was written for can never fire. -/
theorem dup_member_names_accepted :
    (runNormalize dupNamesCluster).map (fun c => c.etcdClusters) =
      .ok dupNamesCluster.etcdClusters ∧
    ∃ e ∈ dupNamesCluster.etcdClusters,
      ¬ (e.members.map (fun m => m.name)).Nodup := by
  decide

/-! ## Claim theorems: stability of CIDR assignment (C6) -/

theorem lookup_mem {l : List (Nat × String)} {i : Nat} {v : String}
    (h : l.lookup i = some v) : (i, v) ∈ l := by
  induction l with
  | nil => cases h
  | cons p t ih =>
    obtain ⟨k, b⟩ := p
    simp only [List.lookup] at h
    split at h
    · rename_i hbeq
      injection h with h2
      have hk : i = k := by simpa using hbeq
      subst hk
      subst h2
      exact List.mem_cons_self _ _
    · exact List.mem_cons_of_mem _ (ih h)

theorem updateCIDRs_length (l : List ClusterSubnetSpec) :
    ∀ (n : Nat) (upds : List (Nat × String)),
    (updateCIDRs n l upds).length = l.length := by
  induction l with
  | nil => intro n upds; rfl
  | cons s rest ih =>
    intro n upds
    simp only [updateCIDRs, List.length_cons, ih]

theorem updateCIDRs_get (l : List ClusterSubnetSpec) :
    ∀ (n j : Nat) (upds : List (Nat × String)),
    (updateCIDRs n l upds)[j]? = (l[j]?).map (fun s =>
      match upds.lookup (n + j) with
      | some v => { s with cidr := v }
      | none => s) := by
  induction l with
  | nil => intro n j upds; simp [updateCIDRs]
  | cons s rest ih =>
    intro n j upds
    cases j with
    | zero => simp [updateCIDRs]
    | succ j =>
      simp only [updateCIDRs, List.getElem?_cons_succ]
      rw [ih (n + 1) j upds]
      have harith : n + 1 + j = n + (j + 1) := by omega
      rw [harith]

theorem mem_insertByZone {x y : Nat × ClusterSubnetSpec}
    {l : List (Nat × ClusterSubnetSpec)} (h : y ∈ insertByZone x l) :
    y = x ∨ y ∈ l := by
  induction l with
  | nil =>
    simp only [insertByZone] at h
    rcases List.mem_singleton.mp h with rfl
    exact Or.inl rfl
  | cons a t ih =>
    simp only [insertByZone] at h
    split at h
    · rcases List.mem_cons.mp h with rfl | h2
      · exact Or.inr (List.mem_cons_self _ _)
      · rcases ih h2 with h3 | h3
        · exact Or.inl h3
        · exact Or.inr (List.mem_cons_of_mem _ h3)
    · rcases List.mem_cons.mp h with rfl | h2
      · exact Or.inl rfl
      · exact Or.inr h2

theorem mem_sortByZone {y : Nat × ClusterSubnetSpec}
    {l : List (Nat × ClusterSubnetSpec)} (h : y ∈ sortByZone l) : y ∈ l := by
  induction l with
  | nil => cases h
  | cons a t ih =>
    rcases mem_insertByZone h with rfl | h2
    · exact List.mem_cons_self _ _
    · exact List.mem_cons_of_mem _ (ih h2)

theorem classifySubnets_sources :
    ∀ {subs : List ClusterSubnetSpec} {n : Nat}
      {big little : List (Nat × ClusterSubnetSpec)} {res : List IPNet},
    classifySubnets n subs = .ok (big, little, res) →
    ∀ i s, ((i, s) ∈ big ∨ (i, s) ∈ little) → n ≤ i ∧ subs[i - n]? = some s := by
  intro subs
  induction subs with
  | nil =>
    intro n big little res h i s hmem
    unfold classifySubnets at h
    injection h with h2
    injection h2 with hb h2
    injection h2 with hl hr
    subst hb
    subst hl
    rcases hmem with hm | hm <;> cases hm
  | cons s0 rest ih =>
    intro n big little res h i s hmem
    unfold classifySubnets at h
    obtain ⟨isBig, hb, h⟩ := exceptBind_ok h
    obtain ⟨ores, hr, h⟩ := exceptBind_ok h
    obtain ⟨⟨b2, l2, r2⟩, hrec, h⟩ := exceptBind_ok h
    dsimp only at h
    injection h with h2
    cases isBig
    · rw [if_neg (by simp)] at h2
      injection h2 with hbig h2
      injection h2 with hlittle hres
      subst hbig
      subst hlittle
      rcases hmem with hm | hm
      · obtain ⟨hle, hget⟩ := ih hrec i s (Or.inl hm)
        refine ⟨by omega, ?_⟩
        have : i - n = (i - (n + 1)) + 1 := by omega
        rw [this, List.getElem?_cons_succ]
        exact hget
      · rcases List.mem_cons.mp hm with heq | hm2
        · injection heq with hi hs
          subst hi
          subst hs
          simp
        · obtain ⟨hle, hget⟩ := ih hrec i s (Or.inr hm2)
          refine ⟨by omega, ?_⟩
          have : i - n = (i - (n + 1)) + 1 := by omega
          rw [this, List.getElem?_cons_succ]
          exact hget
    · rw [if_pos rfl] at h2
      injection h2 with hbig h2
      injection h2 with hlittle hres
      subst hbig
      subst hlittle
      rcases hmem with hm | hm
      · rcases List.mem_cons.mp hm with heq | hm2
        · injection heq with hi hs
          subst hi
          subst hs
          simp
        · obtain ⟨hle, hget⟩ := ih hrec i s (Or.inl hm2)
          refine ⟨by omega, ?_⟩
          have : i - n = (i - (n + 1)) + 1 := by omega
          rw [this, List.getElem?_cons_succ]
          exact hget
      · obtain ⟨hle, hget⟩ := ih hrec i s (Or.inr hm)
        refine ⟨by omega, ?_⟩
        have : i - n = (i - (n + 1)) + 1 := by omega
        rw [this, List.getElem?_cons_succ]
        exact hget

theorem assignFromPool_sources :
    ∀ {kind : String} {subs : List (Nat × ClusterSubnetSpec)} {pool : List IPNet}
      {upds : List (Nat × String)},
    assignFromPool kind subs pool = .ok upds →
    ∀ i v, (i, v) ∈ upds → ∃ s, (i, s) ∈ subs ∧ s.cidr = "" := by
  intro kind subs
  induction subs with
  | nil =>
    intro pool upds h i v hmem
    unfold assignFromPool at h
    injection h with h2
    subst h2
    cases hmem
  | cons p rest ih =>
    intro pool upds h i v hmem
    obtain ⟨j, s0⟩ := p
    unfold assignFromPool at h
    split at h
    · obtain ⟨s, hs, hcs⟩ := ih h i v hmem
      exact ⟨s, List.mem_cons_of_mem _ hs, hcs⟩
    · rename_i hcidr
      split at h
      · exact absurd h (by simp)
      · rename_i p0 ps
        obtain ⟨tail, htail, h⟩ := exceptBind_ok h
        injection h with h2
        subst h2
        rcases List.mem_cons.mp hmem with heq | hm2
        · injection heq with hi hv
          subst hi
          refine ⟨s0, List.mem_cons_self _ _, ?_⟩
          simpa using hcidr
        · obtain ⟨s, hs, hcs⟩ := ih htail i v hm2
          exact ⟨s, List.mem_cons_of_mem _ hs, hcs⟩

/-- C6: subnet CIDR assignment is stable.  On success the subnet list keeps
its length; every subnet keeps its name, zone and type; a subnet whose CIDR
was already set passes through byte-for-byte unchanged (only CIDR-less
subnets are assigned); and if every subnet already has a CIDR the whole
assignment is a no-op. -/
theorem assignCIDRsToSubnets_stable (c c2 : ClusterSpec)
    (h : assignCIDRsToSubnets c = .ok c2) :
    c2.subnets.length = c.subnets.length ∧
    (∀ (i : Nat) (s : ClusterSubnetSpec), c.subnets[i]? = some s →
      ∃ s2 : ClusterSubnetSpec, c2.subnets[i]? = some s2 ∧
      s2.name = s.name ∧ s2.zone = s.zone ∧ s2.type = s.type ∧
      (s.cidr ≠ "" → s2 = s)) ∧
    (allSubnetsHaveCIDRs c = true → c2 = c) := by
  unfold assignCIDRsToSubnets at h
  split at h
  · rename_i hall
    injection h with h2
    subst h2
    exact ⟨rfl, fun i s hs => ⟨s, hs, rfl, rfl, rfl, fun _ => rfl⟩, fun _ => rfl⟩
  · rename_i hall
    split at h
    · exact absurd h (by simp)
    · rename_i cidr heq
      obtain ⟨bigs, h8, h⟩ := exceptBind_ok h
      obtain ⟨triple, hcl, h⟩ := exceptBind_ok h
      obtain ⟨bigS, littleS, res⟩ := triple
      dsimp only at h
      split at h
      · exact absurd h (by simp)
      · rename_i first restBig hfl
        obtain ⟨littles, hlit, h⟩ := exceptBind_ok h
        obtain ⟨bigUpd, hbu, h⟩ := exceptBind_ok h
        obtain ⟨littleUpd, hlu, h⟩ := exceptBind_ok h
        injection h with h2
        subst h2
        have hsrc : ∀ i v, (i, v) ∈ bigUpd ++ littleUpd →
            ∃ s, c.subnets[i]? = some s ∧ s.cidr = "" := by
          intro i v hmem
          rcases List.mem_append.mp hmem with hm | hm
          · obtain ⟨s, hs, hcs⟩ := assignFromPool_sources hbu i v hm
            have hs2 := mem_sortByZone hs
            have hsi := classifySubnets_sources hcl i s (Or.inl hs2)
            exact ⟨s, by simpa using hsi.2, hcs⟩
          · obtain ⟨s, hs, hcs⟩ := assignFromPool_sources hlu i v hm
            have hs2 := mem_sortByZone hs
            have hsi := classifySubnets_sources hcl i s (Or.inr hs2)
            exact ⟨s, by simpa using hsi.2, hcs⟩
        refine ⟨updateCIDRs_length c.subnets 0 (bigUpd ++ littleUpd), ?_, ?_⟩
        · intro i s hs
          have hget := updateCIDRs_get c.subnets 0 i (bigUpd ++ littleUpd)
          rw [hs] at hget
          simp only [Nat.zero_add, Option.map_some] at hget
          cases hlk : (bigUpd ++ littleUpd).lookup i with
          | some v =>
            rw [hlk] at hget
            refine ⟨{ s with cidr := v }, hget, rfl, rfl, rfl, ?_⟩
            intro hne
            obtain ⟨t, ht, htc⟩ := hsrc i v (lookup_mem hlk)
            rw [hs] at ht
            injection ht with ht2
            rw [← ht2] at htc
            exact absurd htc hne
          | none =>
            rw [hlk] at hget
            exact ⟨s, hget, rfl, rfl, rfl, fun _ => rfl⟩
        · intro hfalse
          exact absurd hfalse hall

/-- A cluster with one subnet CIDR pre-set to `172.20.64.0/19` and a second
subnet without a CIDR. -/
def updateWitnessIn : ClusterSpec :=
  { networkCIDR := "172.20.0.0/16", nonMasqueradeCIDR := "100.64.0.0/10",
    serviceClusterIPRange := "",
    subnets := [⟨"us-test-1a", "us-test-1a", "172.20.64.0/19", "Public"⟩,
                ⟨"us-test-1b", "us-test-1b", "", "Public"⟩],
    kubeControllerManager := none, etcdClusters := [] }

/-- The result of assignment on `updateWitnessIn`: the pre-set CIDR is kept
byte-for-byte, the empty one is filled. -/
def updateWitnessOut : ClusterSpec :=
  { networkCIDR := "172.20.0.0/16", nonMasqueradeCIDR := "100.64.0.0/10",
    serviceClusterIPRange := "",
    subnets := [⟨"us-test-1a", "us-test-1a", "172.20.64.0/19", "Public"⟩,
                ⟨"us-test-1b", "us-test-1b", "172.20.32.0/19", "Public"⟩],
    kubeControllerManager := none, etcdClusters := [] }

/-- Witness for C6: one subnet pre-set to `172.20.64.0/19` and one without a
CIDR; assignment keeps the pre-set CIDR byte-for-byte. -/
theorem assignCIDRsToSubnets_stable_witness :
    updateWitnessOut.subnets.length = updateWitnessIn.subnets.length ∧
    (∀ (i : Nat) (s : ClusterSubnetSpec), updateWitnessIn.subnets[i]? = some s →
      ∃ s2 : ClusterSubnetSpec, updateWitnessOut.subnets[i]? = some s2 ∧
        s2.name = s.name ∧ s2.zone = s.zone ∧ s2.type = s.type ∧
        (s.cidr ≠ "" → s2 = s)) ∧
    (allSubnetsHaveCIDRs updateWitnessIn = true → updateWitnessOut = updateWitnessIn) :=
  assignCIDRsToSubnets_stable updateWitnessIn updateWitnessOut (by decide)

/-! ## Claim theorems: immutable-field enforcement (C8) -/

/-- A provisioned load balancer task (ID known, one subnet, one listener). -/
def lbBase : LoadBalancerTask :=
  { name := some "api.minimal.example.com", id := some "api-minimal",
    dnsName := none, hostedZoneId := none, subnets := [some "subnet-1"],
    securityGroups := [some "sg-1"], listeners := [("443", ⟨443⟩)], scheme := none,
    healthCheck := none, accessLog := none, connectionDraining := none,
    connectionSettings := none, crossZoneLoadBalancing := none }

/-- A diff that changes the LoadBalancer's Subnets. -/
def lbChangesSubnets : LoadBalancerChanges :=
  { subnets := some [some "subnet-2"], listeners := none, healthCheck := none }

/-- C8 counterexample: a diff changing `Subnets` on a found LoadBalancer
passes `CheckChanges` (which enforces nothing on the update path), and the
reconciliation then fails only inside `RenderAWS` with a plain
"not yet implemented" error — not with a `CannotChange(Subnets)` error as
the claim states. -/
theorem lb_subnet_change_not_cannotChange :
    lbCheckChanges (some lbBase) lbBase lbChangesSubnets = .ok () ∧
    lbRenderAWSUpdate lbBase lbChangesSubnets =
      .error (.other "subnet changes on LoadBalancer not yet implemented") := by
  decide

/-- C8 amended: on a found Subnet task, a diff touching VPC,
AvailabilityZone or CIDR makes `CheckChanges` fail with `CannotChange`
naming the first such field, before any mutation; on a found LoadBalancer,
`CheckChanges` enforces nothing, and a diff touching Subnets instead makes
`RenderAWS` fail with the literal "not yet implemented" error before any
cloud call. -/
theorem immutability_enforcement (aS eS chS : SubnetTask)
    (aL eL : LoadBalancerTask) (chL : LoadBalancerChanges) :
    (chS.vpc ≠ none → subnetCheckChanges (some aS) eS chS = .error (.cannotChange "VPC")) ∧
    (chS.vpc = none → chS.availabilityZone ≠ none →
      subnetCheckChanges (some aS) eS chS = .error (.cannotChange "AvailabilityZone")) ∧
    (chS.vpc = none → chS.availabilityZone = none → chS.cidr ≠ none →
      subnetCheckChanges (some aS) eS chS = .error (.cannotChange "CIDR")) ∧
    lbCheckChanges (some aL) eL chL = .ok () ∧
    (chL.subnets ≠ none → eL.id ≠ none →
      lbRenderAWSUpdate eL chL =
        .error (.other "subnet changes on LoadBalancer not yet implemented")) := by
  refine ⟨?_, ?_, ?_, rfl, ?_⟩
  · intro h1
    simp [subnetCheckChanges, h1]
  · intro h1 h2
    simp [subnetCheckChanges, h1, h2]
  · intro h1 h2 h3
    simp [subnetCheckChanges, h1, h2, h3]
  · intro h1 h2
    cases hid : eL.id with
    | none => exact absurd hid h2
    | some i =>
      cases hsub : chL.subnets with
      | none => exact absurd hsub h1
      | some l => simp [lbRenderAWSUpdate, hid, hsub]

/-- A provisioned subnet task. -/
def subnetTaskEx : SubnetTask :=
  { name := some "us-test-1a.minimal.example.com", id := some "subnet-1",
    vpc := some ⟨some "vpc-1"⟩, availabilityZone := some "us-test-1a",
    cidr := some "172.20.32.0/19", shared := none }

/-- A diff changing only the subnet's VPC. -/
def subnetVPCChange : SubnetTask :=
  { name := none, id := none, vpc := some ⟨some "vpc-2"⟩,
    availabilityZone := none, cidr := none, shared := none }

/-- A diff changing only the subnet's AvailabilityZone. -/
def subnetAZChange : SubnetTask :=
  { name := none, id := none, vpc := none,
    availabilityZone := some "us-test-1b", cidr := none, shared := none }

/-- A diff changing only the subnet's CIDR. -/
def subnetCIDRChange : SubnetTask :=
  { name := none, id := none, vpc := none, availabilityZone := none,
    cidr := some "172.20.64.0/19", shared := none }

/-- Witness for the amended C8 at concrete tasks and diffs. -/
theorem immutability_enforcement_witness :
    subnetCheckChanges (some subnetTaskEx) subnetTaskEx subnetVPCChange =
      .error (.cannotChange "VPC") ∧
    subnetCheckChanges (some subnetTaskEx) subnetTaskEx subnetAZChange =
      .error (.cannotChange "AvailabilityZone") ∧
    subnetCheckChanges (some subnetTaskEx) subnetTaskEx subnetCIDRChange =
      .error (.cannotChange "CIDR") ∧
    lbCheckChanges (some lbBase) lbBase lbChangesSubnets = .ok () ∧
    lbRenderAWSUpdate lbBase lbChangesSubnets =
      .error (.other "subnet changes on LoadBalancer not yet implemented") :=
  ⟨(immutability_enforcement subnetTaskEx subnetTaskEx subnetVPCChange
      lbBase lbBase lbChangesSubnets).1 (by decide),
   (immutability_enforcement subnetTaskEx subnetTaskEx subnetAZChange
      lbBase lbBase lbChangesSubnets).2.1 (by decide) (by decide),
   (immutability_enforcement subnetTaskEx subnetTaskEx subnetCIDRChange
      lbBase lbBase lbChangesSubnets).2.2.1 (by decide) (by decide) (by decide),
   (immutability_enforcement subnetTaskEx subnetTaskEx subnetCIDRChange
      lbBase lbBase lbChangesSubnets).2.2.2.1,
   (immutability_enforcement subnetTaskEx subnetTaskEx subnetCIDRChange
      lbBase lbBase lbChangesSubnets).2.2.2.2 (by decide) (by decide)⟩

/-! ## Claim theorems: Find write-back (C9) -/

/-- C9: `Find` is not side-effect-free on the expected task.  When
`Subnet.Find` locates a unique matching subnet it always writes the found
subnet's ID into the expected task, leaving every other expected field
unchanged; when `LoadBalancer.Find` locates a load balancer it copies the
discovered `DNSName`, `HostedZoneId` and `ID` into the expected task exactly
for those of these fields that are nil, leaving all other expected fields
unchanged (the record-update equations capture the frame). -/
theorem find_writes_back_identities (eS : SubnetTask) (s : Ec2Subnet)
    (eL : LoadBalancerTask) (d : ElbDescription) (attrs : Option ElbAttributes)
    (hc : Option LBHealthCheck) :
    (∀ a eAfter : SubnetTask, subnetFind eS [s] = .ok (some a, eAfter) →
      a.id = s.subnetId ∧ eAfter = { eS with id := s.subnetId }) ∧
    (∀ a eAfter : LoadBalancerTask,
      lbFind eL (some d) attrs hc = .ok (some a, eAfter) →
      a.dnsName = d.dnsName ∧ a.hostedZoneId = d.canonicalHostedZoneNameID ∧
      a.id = d.loadBalancerName ∧
      eAfter = { eL with
        dnsName := if eL.dnsName = none then d.dnsName else eL.dnsName,
        hostedZoneId := if eL.hostedZoneId = none then d.canonicalHostedZoneNameID
          else eL.hostedZoneId,
        id := if eL.id = none then d.loadBalancerName else eL.id }) := by
  constructor
  · intro a eAfter h
    unfold subnetFind at h
    injection h with h2
    injection h2 with ha he
    injection ha with ha2
    subst ha2
    subst he
    exact ⟨rfl, rfl⟩
  · intro a eAfter h
    unfold lbFind at h
    dsimp only at h
    injection h with h2
    injection h2 with ha he
    injection ha with ha2
    subst ha2
    subst he
    by_cases h0 : subnetSlicesEqualIgnoreOrder (d.subnets.map some) eL.subnets <;>
      by_cases h1 : eL.dnsName = none <;>
      by_cases h2 : eL.hostedZoneId = none <;>
      by_cases h3 : eL.id = none <;>
      simp [h0, h1, h2, h3]

/-- A cloud-side subnet description for the C9 witness. -/
def ec2SubnetEx : Ec2Subnet :=
  { subnetId := some "subnet-abc", availabilityZone := some "us-test-1a",
    vpcId := some "vpc-1", cidrBlock := some "172.20.32.0/19",
    tags := [("Name", "us-test-1a.minimal.example.com")] }

/-- An expected subnet task without an ID yet. -/
def sFindIn : SubnetTask :=
  { name := some "us-test-1a.minimal.example.com", id := none,
    vpc := some ⟨some "vpc-1"⟩, availabilityZone := some "us-test-1a",
    cidr := some "172.20.32.0/19", shared := none }

/-- The actual subnet task that `subnetFind` builds from `ec2SubnetEx`. -/
def sFoundA : SubnetTask :=
  { name := some "us-test-1a.minimal.example.com", id := some "subnet-abc",
    vpc := some ⟨some "vpc-1"⟩, availabilityZone := some "us-test-1a",
    cidr := some "172.20.32.0/19", shared := none }

/-- A cloud-side load-balancer description for the C9 witness. -/
def elbDescEx : ElbDescription :=
  { loadBalancerName := some "api-minimal",
    dnsName := some "api-minimal-123.elb.amazonaws.com",
    canonicalHostedZoneNameID := some "Z35SXDOTRQ7X7K",
    scheme := some "internet-facing", subnets := ["subnet-abc"],
    securityGroups := ["sg-1"], listenerDescriptions := [(443, 443)] }

/-- The actual load-balancer task that `lbFind` builds from `elbDescEx`. -/
def lbFoundA : LoadBalancerTask :=
  { name := some "api.minimal.example.com", id := some "api-minimal",
    dnsName := some "api-minimal-123.elb.amazonaws.com",
    hostedZoneId := some "Z35SXDOTRQ7X7K", subnets := [some "subnet-abc"],
    securityGroups := [some "sg-1"], listeners := [("443", ⟨443⟩)],
    scheme := some "internet-facing", healthCheck := none, accessLog := none,
    connectionDraining := none, connectionSettings := none,
    crossZoneLoadBalancing := none }

/-- The expected load-balancer task after `lbFind`'s write-back: `DNSName`
and `HostedZoneId` were nil and get the discovered values; the ID was
already set and is kept. -/
def lbFoundE : LoadBalancerTask :=
  { lbBase with dnsName := some "api-minimal-123.elb.amazonaws.com",
                hostedZoneId := some "Z35SXDOTRQ7X7K" }

/-- Witness for C9 at the concrete tasks and cloud responses. -/
theorem find_writes_back_identities_witness :
    (sFoundA.id = ec2SubnetEx.subnetId ∧
     sFoundA = { sFindIn with id := ec2SubnetEx.subnetId }) ∧
    (lbFoundA.dnsName = elbDescEx.dnsName ∧
     lbFoundA.hostedZoneId = elbDescEx.canonicalHostedZoneNameID ∧
     lbFoundA.id = elbDescEx.loadBalancerName ∧
     lbFoundE = { lbBase with
       dnsName := if lbBase.dnsName = none then elbDescEx.dnsName else lbBase.dnsName,
       hostedZoneId := if lbBase.hostedZoneId = none then
           elbDescEx.canonicalHostedZoneNameID
         else lbBase.hostedZoneId,
       id := if lbBase.id = none then elbDescEx.loadBalancerName else lbBase.id }) :=
  ⟨(find_writes_back_identities sFindIn ec2SubnetEx lbBase elbDescEx none none).1
      sFoundA { sFindIn with id := ec2SubnetEx.subnetId } (by decide),
   (find_writes_back_identities sFindIn ec2SubnetEx lbBase elbDescEx none none).2
      lbFoundA lbFoundE (by decide)⟩
